import Mathlib

/-!
Block generator of Bernoulli random variables: `fast-bernoulli.h`

A shallow embedding of the header `src/fast-bernoulli.h`.

* `EStatus`, `IBernoulli`, `TStdBernoulli`, `TDummyBernoulli`, `TSamplerPtr`
  follow the declarations of the header.
* The header only declares `TStdBernoulli::Generate`, `TDummyBernoulli::Generate`
  and `CreateBernoulliGenerator`; their bodies live in a translation unit that is
  not available.  These three are modelled from the design document and every
  such definition says so in its doc comment.
* Mutable state is passed explicitly: the random engine (`TRng`), the byte
  addressed memory (`Memory`) and the handle itself.
-/

namespace NFastBernoulli

/-! ## Status codes -/

/-- The enumeration `enum EStatus : uint32_t`. -/
inductive EStatus where
  | EOk
  | EWrongPtrAlignment
  | EWrongSizeAlignment
  deriving DecidableEq

/-- The underlying `uint32_t` value of an enumerator
(`EOk = 0`, `EWrongPtrAlignment = 1`, `EWrongSizeAlignment = 2`). -/
def EStatus.toUInt32 : EStatus → Nat
  | .EOk => 0
  | .EWrongPtrAlignment => 1
  | .EWrongSizeAlignment => 2

/-- The implicit conversion of an unscoped enumeration value to `bool`:
zero becomes `false`, every other value becomes `true`. -/
def EStatus.toBool (s : EStatus) : Bool :=
  s.toUInt32 != 0

/-! ## Random engine and memory -/

/-- The engine `using TRng = std::mt19937_64`.  The engine is a standard library
collaborator: a deterministic source of 64-bit words.  It is represented by the
sequence of words it is going to produce together with the number of words
already drawn, which covers every engine state. -/
structure TRng where
  stream : Nat → Nat
  drawn : Nat

/-- One call of the engine: the next 64-bit word and the advanced engine. -/
def TRng.next (rng : TRng) : Nat × TRng :=
  (rng.stream rng.drawn % 2 ^ 64, { rng with drawn := rng.drawn + 1 })

/-- Byte addressed memory: the byte stored at every address. -/
abbrev Memory := Nat → Nat

/-- Store one byte. -/
def Memory.write (mem : Memory) (addr byte : Nat) : Memory :=
  fun a => if a = addr then byte % 256 else mem a

/-- Store the same byte at every address of `[addr, addr + size)`. -/
def Memory.fill (mem : Memory) (addr size byte : Nat) : Memory :=
  fun a => if addr ≤ a ∧ a < addr + size then byte % 256 else mem a

/-! ## The interface `IBernoulli` -/

/-- The abstract class `IBernoulli`: an object with the two virtual member
functions `Generate(TRng &rng, void *begin, size_t size)` and
`Generate(void *begin, size_t size)`.  A call receives the engine and the
memory and returns the status with the engine and memory it leaves behind.
For the overload without an engine argument the engine passed here is the
default engine managed by the implementation. -/
structure IBernoulli where
  Generate : TRng → Nat → Nat → Memory → EStatus × TRng × Memory
  GenerateDefault : TRng → Nat → Nat → Memory → EStatus × TRng × Memory

/-! ## Shared packing loops (modelled) -/

/-- Modelled from the spec: the body of the generation loops is missing from the
sources.  `packBits trial k` performs `k` trials in order and packs their
outcomes least significant bit first. -/
def packBits (trial : TRng → Bool × TRng) : Nat → TRng → Nat × TRng
  | 0, rng => (0, rng)
  | k + 1, rng =>
    let t := trial rng
    let rest := packBits trial k t.2
    ((if t.1 then 1 else 0) + 2 * rest.1, rest.2)

/-- Modelled from the spec: the body of the generation loops is missing from the
sources.  `fillBytes trial n addr` writes `n` consecutive bytes starting at
`addr`, each holding eight trials. -/
def fillBytes (trial : TRng → Bool × TRng) : Nat → Nat → TRng → Memory → TRng × Memory
  | 0, _, rng, mem => (rng, mem)
  | n + 1, addr, rng, mem =>
    let b := packBits trial 8 rng
    fillBytes trial n (addr + 1) b.2 (Memory.write mem addr b.1)

/-! ## `TStdBernoulli` -/

/-- The class `TStdBernoulli`: its only member is the distribution `Dist_`,
constructed from the probability.  The probability (a finite `double`) is
represented by its rational value. -/
structure TStdBernoulli where
  Dist_ : ℚ

/-- Modelled from the spec: `std::bernoulli_distribution` applied to the engine
(standard library, body not in the sources).  One uniform value of `[0, 1)` is
drawn from the engine and compared against the probability. -/
def TStdBernoulli.trial (self : TStdBernoulli) (rng : TRng) : Bool × TRng :=
  let d := rng.next
  (decide ((d.1 : ℚ) / 2 ^ 64 < self.Dist_), d.2)

/-- Modelled from the spec: the body of `TStdBernoulli::Generate` is missing
from the sources.  For each of the `8 * size` trial positions one uniform value
is drawn and compared against the probability; there is no alignment
requirement and the result is always `EOk`. -/
def TStdBernoulli.Generate (self : TStdBernoulli) (rng : TRng) (begin size : Nat)
    (mem : Memory) : EStatus × TRng × Memory :=
  let r := fillBytes self.trial size begin rng mem
  (EStatus.EOk, r.1, r.2)

/-- The object of class `TStdBernoulli` seen through its base class. -/
def TStdBernoulli.toIBernoulli (self : TStdBernoulli) : IBernoulli :=
  { Generate := self.Generate, GenerateDefault := self.Generate }

/-! ## `TDummyBernoulli` -/

/-- The class `TDummyBernoulli`: its only member is `double Proba_`,
represented by its rational value. -/
structure TDummyBernoulli where
  Proba_ : ℚ

/-- Modelled from the spec: the chunk size of the vector backend, 32 bytes
(one 256-bit register); the constant is missing from the sources. -/
def chunkSize : Nat := 32

/-- Modelled from the spec: the integer threshold `round(Probability * 2^k)`
for 64-bit lanes; the body is missing from the sources. -/
def TDummyBernoulli.threshold (self : TDummyBernoulli) : ℤ :=
  round (self.Proba_ * 2 ^ 64)

/-- Modelled from the spec: one lane of the vector comparison, a 64-bit draw
compared against the threshold; the body is missing from the sources. -/
def TDummyBernoulli.trial (self : TDummyBernoulli) (rng : TRng) : Bool × TRng :=
  let d := rng.next
  (decide ((d.1 : ℤ) < self.threshold), d.2)

/-- Modelled from the spec: the chunk loop of the vector backend, one chunk of
`chunkSize` bytes per iteration; the body is missing from the sources. -/
def TDummyBernoulli.fillChunks (self : TDummyBernoulli) :
    Nat → Nat → TRng → Memory → TRng × Memory
  | 0, _, rng, mem => (rng, mem)
  | n + 1, addr, rng, mem =>
    let r := fillBytes self.trial chunkSize addr rng mem
    TDummyBernoulli.fillChunks self n (addr + chunkSize) r.1 r.2

/-- Modelled from the spec: the body of `TDummyBernoulli::Generate` is missing
from the sources.  Both alignment constraints are checked before anything is
written (the pointer first, then the size); a probability at or below 0
short-circuits to an all-zero region and one at or above 1 to an all-one region
without drawing; otherwise the buffer is processed chunk by chunk. -/
def TDummyBernoulli.Generate (self : TDummyBernoulli) (rng : TRng) (begin size : Nat)
    (mem : Memory) : EStatus × TRng × Memory :=
  if begin % chunkSize ≠ 0 then (EStatus.EWrongPtrAlignment, rng, mem)
  else if size % chunkSize ≠ 0 then (EStatus.EWrongSizeAlignment, rng, mem)
  else if self.Proba_ ≤ 0 then (EStatus.EOk, rng, Memory.fill mem begin size 0x00)
  else if 1 ≤ self.Proba_ then (EStatus.EOk, rng, Memory.fill mem begin size 0xFF)
  else
    let r := self.fillChunks (size / chunkSize) begin rng mem
    (EStatus.EOk, r.1, r.2)

/-- The object of class `TDummyBernoulli` seen through its base class. -/
def TDummyBernoulli.toIBernoulli (self : TDummyBernoulli) : IBernoulli :=
  { Generate := self.Generate, GenerateDefault := self.Generate }

/-- The two classes that derive from `IBernoulli` in the header: `BuiltWith p b`
says that `b` is an object of one of them constructed with the probability `p`. -/
inductive BuiltWith (p : ℚ) : IBernoulli → Prop
  | std : BuiltWith p (TStdBernoulli.mk p).toIBernoulli
  | dummy : BuiltWith p (TDummyBernoulli.mk p).toIBernoulli

/-! ## The handle `TSamplerPtr` -/

/-- The outcome of dereferencing an empty `std::unique_ptr`. -/
inductive Fault where
  | NullDereference
  deriving DecidableEq

/-- The class `TSamplerPtr`: its only member is
`std::unique_ptr<IBernoulli> Sampler_ = {}`.  An owning pointer is `some` of the
owned object and the null pointer is `none`. -/
structure TSamplerPtr where
  Sampler_ : Option IBernoulli := none

/-- The constructor `TSamplerPtr(void) noexcept = default`: the member keeps its
default member initializer. -/
def TSamplerPtr.ctorDefault : TSamplerPtr := {}

/-- The constructor `TSamplerPtr(std::unique_ptr<IBernoulli> &&sampler)`:
`Sampler_` takes over what `sampler` owned. -/
def TSamplerPtr.ctor (sampler : Option IBernoulli) : TSamplerPtr :=
  { Sampler_ := sampler }

/-- The member `bool operator()(TRng &rng, void *ptr, size_t size)`:
`return Sampler_->Generate(rng, ptr, size);`.  The arrow dereferences
`Sampler_` without a check, and the `EStatus` of the call is converted to the
declared return type `bool`. -/
def TSamplerPtr.call (self : TSamplerPtr) (rng : TRng) (ptr size : Nat) (mem : Memory) :
    Except Fault (Bool × TSamplerPtr × TRng × Memory) :=
  match self.Sampler_ with
  | none => .error Fault.NullDereference
  | some sampler =>
    let r := sampler.Generate rng ptr size mem
    .ok (r.1.toBool, self, r.2.1, r.2.2)

/-- The member `IBernoulli *get(void)`: `return Sampler_.get();`.  The raw
pointer is `none` when null; the handle is returned alongside because the
member is not `const`. -/
def TSamplerPtr.get (self : TSamplerPtr) : Option IBernoulli × TSamplerPtr :=
  (self.Sampler_, self)

/-- The value the caller of the generation operator receives, when the call
returns at all. -/
def TSamplerPtr.returned (r : Except Fault (Bool × TSamplerPtr × TRng × Memory)) :
    Option Bool :=
  match r with
  | .error _ => none
  | .ok v => some v.1

/-- One use of a handle by its caller: the accessor, or the generation operator
with the caller's engine, address and size. -/
inductive Call where
  | get
  | generate (rng : TRng) (ptr size : Nat)

/-- A sequence of uses of one handle, threading the handle and the memory;
a fault stops the sequence. -/
def TSamplerPtr.run : List Call → TSamplerPtr → Memory → Except Fault (TSamplerPtr × Memory)
  | [], self, mem => .ok (self, mem)
  | Call.get :: rest, self, mem => TSamplerPtr.run rest (self.get).2 mem
  | Call.generate rng ptr size :: rest, self, mem =>
    match self.call rng ptr size mem with
    | .error e => .error e
    | .ok r => TSamplerPtr.run rest r.2.1 r.2.2.2

/-- An implementation of `IBernoulli` whose `Generate` reports a fixed status and
touches neither the engine nor the memory. -/
def fixedStatusSampler (st : EStatus) : IBernoulli :=
  { Generate := fun rng _ _ mem => (st, rng, mem),
    GenerateDefault := fun rng _ _ mem => (st, rng, mem) }

/-! ## The factory `CreateBernoulliGenerator` -/

/-- Modelled from the spec: the body of `CreateBernoulliGenerator` is missing
from the sources, and so is the capability query of `cpuid.h`, whose answer is
the argument `hasVector`.  When the targeted vector instruction set is present
the handle owns a `TDummyBernoulli` built with the probability, otherwise a
`TStdBernoulli` built with it. -/
def CreateBernoulliGenerator (hasVector : Bool) (proba : ℚ) : TSamplerPtr :=
  if hasVector then TSamplerPtr.ctor (some (TDummyBernoulli.mk proba).toIBernoulli)
  else TSamplerPtr.ctor (some (TStdBernoulli.mk proba).toIBernoulli)

/-! ## The handle: claims settled on the header -/

/-- The conversion to `bool` sends `EOk` to `false` and both failures to `true`. -/
theorem EStatus.toBool_cases (st : EStatus) :
    (st.toBool = false ↔ st = EStatus.EOk) ∧
    (st.toBool = true ↔ st = EStatus.EWrongPtrAlignment ∨ st = EStatus.EWrongSizeAlignment) := by
  cases st <;> simp [EStatus.toBool, EStatus.toUInt32]

/-- A call on a handle that owns `b` unfolds to one call of `b.Generate`. -/
theorem TSamplerPtr.call_some (self : TSamplerPtr) (b : IBernoulli)
    (h : self.Sampler_ = some b) (rng : TRng) (ptr size : Nat) (mem : Memory) :
    self.call rng ptr size mem =
      .ok ((b.Generate rng ptr size mem).1.toBool, self,
        (b.Generate rng ptr size mem).2.1, (b.Generate rng ptr size mem).2.2) := by
  simp [TSamplerPtr.call, h]

/-- C1 (as stated, refuted): a handle whose backend reports `EWrongPtrAlignment`
and a handle whose backend reports `EWrongSizeAlignment` hand the same value,
`true`, to the caller; the two statuses do not reach the caller as distinct
results. -/
theorem TSamplerPtr.call_merges_failures :
    ((fixedStatusSampler EStatus.EWrongPtrAlignment).Generate ⟨fun _ => 0, 0⟩ 0 0 (fun _ => 0)).1
      ≠ ((fixedStatusSampler EStatus.EWrongSizeAlignment).Generate ⟨fun _ => 0, 0⟩ 0 0
          (fun _ => 0)).1 ∧
    TSamplerPtr.returned
        ((TSamplerPtr.ctor (some (fixedStatusSampler EStatus.EWrongPtrAlignment))).call
          ⟨fun _ => 0, 0⟩ 0 0 (fun _ => 0)) = some true ∧
    TSamplerPtr.returned
        ((TSamplerPtr.ctor (some (fixedStatusSampler EStatus.EWrongSizeAlignment))).call
          ⟨fun _ => 0, 0⟩ 0 0 (fun _ => 0)) = some true := by
  refine ⟨?_, rfl, rfl⟩
  simp [fixedStatusSampler]

/-- C1 (amended): for every handle that owns a backend `b` and every engine,
address and size, the generation operator forwards once to `b.Generate` with the
same arguments, leaves the engine and the memory as that call left them, keeps
the handle, and returns the status of that call converted to `bool`: `false`
for `EOk`, `true` for `EWrongPtrAlignment` and for `EWrongSizeAlignment`. -/
theorem TSamplerPtr.call_forwards (self : TSamplerPtr) (b : IBernoulli)
    (h : self.Sampler_ = some b) (rng : TRng) (ptr size : Nat) (mem : Memory) :
    self.call rng ptr size mem =
        .ok ((b.Generate rng ptr size mem).1.toBool, self,
          (b.Generate rng ptr size mem).2.1, (b.Generate rng ptr size mem).2.2) ∧
      EStatus.EOk.toBool = false ∧
      EStatus.EWrongPtrAlignment.toBool = true ∧
      EStatus.EWrongSizeAlignment.toBool = true :=
  ⟨TSamplerPtr.call_some self b h rng ptr size mem, rfl, rfl, rfl⟩

/-- Witness of `TSamplerPtr.call_forwards` at a handle owning a backend that
reports `EWrongSizeAlignment`. -/
theorem TSamplerPtr.call_forwards_witness :
    (TSamplerPtr.ctor (some (fixedStatusSampler EStatus.EWrongSizeAlignment))).Sampler_
        = some (fixedStatusSampler EStatus.EWrongSizeAlignment) ∧
      TSamplerPtr.returned
        ((TSamplerPtr.ctor (some (fixedStatusSampler EStatus.EWrongSizeAlignment))).call
          ⟨fun _ => 5, 0⟩ 64 3 (fun _ => 0)) = some true :=
  ⟨rfl, by
    rw [(TSamplerPtr.call_forwards
      (TSamplerPtr.ctor (some (fixedStatusSampler EStatus.EWrongSizeAlignment)))
      (fixedStatusSampler EStatus.EWrongSizeAlignment) rfl ⟨fun _ => 5, 0⟩ 64 3 (fun _ => 0)).1]
    rfl⟩

/-- C9: for every handle that owns a backend `b` and every call, the generation
operator returns a boolean that is `false` exactly when `b.Generate` returned
`EOk` (value 0) and `true` exactly when it returned `EWrongPtrAlignment`
(value 1) or `EWrongSizeAlignment` (value 2). -/
theorem TSamplerPtr.call_result_bool (self : TSamplerPtr) (b : IBernoulli)
    (h : self.Sampler_ = some b) (rng : TRng) (ptr size : Nat) (mem : Memory) :
    ∃ res : Bool, TSamplerPtr.returned (self.call rng ptr size mem) = some res ∧
      (res = false ↔ (b.Generate rng ptr size mem).1 = EStatus.EOk) ∧
      (res = true ↔ (b.Generate rng ptr size mem).1 = EStatus.EWrongPtrAlignment ∨
        (b.Generate rng ptr size mem).1 = EStatus.EWrongSizeAlignment) ∧
      EStatus.EOk.toUInt32 = 0 ∧ EStatus.EWrongPtrAlignment.toUInt32 = 1 ∧
      EStatus.EWrongSizeAlignment.toUInt32 = 2 := by
  refine ⟨(b.Generate rng ptr size mem).1.toBool, ?_, ?_, ?_, rfl, rfl, rfl⟩
  · rw [TSamplerPtr.call_some self b h]
    rfl
  · exact (EStatus.toBool_cases _).1
  · exact (EStatus.toBool_cases _).2

/-- Witness of `TSamplerPtr.call_result_bool` at a handle owning a backend that
reports `EOk`. -/
theorem TSamplerPtr.call_result_bool_witness :
    (TSamplerPtr.ctor (some (fixedStatusSampler EStatus.EOk))).Sampler_
        = some (fixedStatusSampler EStatus.EOk) ∧
      ∃ res : Bool,
        TSamplerPtr.returned
          ((TSamplerPtr.ctor (some (fixedStatusSampler EStatus.EOk))).call
            ⟨fun _ => 5, 0⟩ 64 32 (fun _ => 0)) = some res ∧ res = false :=
  ⟨rfl, by
    obtain ⟨res, h1, h2, _⟩ := TSamplerPtr.call_result_bool
      (TSamplerPtr.ctor (some (fixedStatusSampler EStatus.EOk)))
      (fixedStatusSampler EStatus.EOk) rfl ⟨fun _ => 5, 0⟩ 64 32 (fun _ => 0)
    exact ⟨res, h1, h2.2 rfl⟩⟩

/-- C10: the generation operator dereferences `Sampler_` without a null check.
It yields a result for every handle constructed from a non-null backend, and on
a handle that owns nothing (default-constructed, or constructed from an empty
owner) it ends in the null-dereference fault and returns no status. -/
theorem TSamplerPtr.call_null_dereference :
    (∀ (b : IBernoulli) (rng : TRng) (ptr size : Nat) (mem : Memory),
      ∃ r, (TSamplerPtr.ctor (some b)).call rng ptr size mem = .ok r) ∧
    (∀ (rng : TRng) (ptr size : Nat) (mem : Memory),
      TSamplerPtr.ctorDefault.call rng ptr size mem = .error Fault.NullDereference ∧
      TSamplerPtr.returned (TSamplerPtr.ctorDefault.call rng ptr size mem) = none) ∧
    (∀ (rng : TRng) (ptr size : Nat) (mem : Memory),
      (TSamplerPtr.ctor none).call rng ptr size mem = .error Fault.NullDereference ∧
      TSamplerPtr.returned ((TSamplerPtr.ctor none).call rng ptr size mem) = none) := by
  refine ⟨?_, ?_, ?_⟩
  · intro b rng ptr size mem
    exact ⟨_, TSamplerPtr.call_some _ b rfl rng ptr size mem⟩
  · intro rng ptr size mem
    exact ⟨rfl, rfl⟩
  · intro rng ptr size mem
    exact ⟨rfl, rfl⟩

/-- C6: a default-constructed handle owns no backend; its accessor `get`
returns the null pointer. -/
theorem TSamplerPtr.get_ctorDefault : (TSamplerPtr.ctorDefault.get).1 = none := rfl

/-- Any sequence of uses of a handle that owns a backend runs without a fault and
ends with the very same handle. -/
theorem TSamplerPtr.run_some (calls : List Call) (self : TSamplerPtr) (b : IBernoulli)
    (h : self.Sampler_ = some b) (mem : Memory) :
    ∃ mem1, TSamplerPtr.run calls self mem = .ok (self, mem1) := by
  induction calls generalizing mem with
  | nil => exact ⟨mem, rfl⟩
  | cons c rest ih =>
    cases c with
    | get => simpa [TSamplerPtr.run, TSamplerPtr.get] using ih mem
    | generate rng ptr size =>
      simpa [TSamplerPtr.run, TSamplerPtr.call_some self b h] using
        ih (b.Generate rng ptr size mem).2.2

/-- C5: for every backend `b`, the handle constructed from `b` owns exactly `b`:
`get` returns `b`, and after any sequence of calls of `get` and of the generation
operator the sequence has run to its end and `get` still returns `b`. -/
theorem TSamplerPtr.owns_backend (b : IBernoulli) (calls : List Call) (mem : Memory) :
    ((TSamplerPtr.ctor (some b)).get).1 = some b ∧
    ∃ self1 mem1,
      TSamplerPtr.run calls (TSamplerPtr.ctor (some b)) mem = .ok (self1, mem1) ∧
      (self1.get).1 = some b := by
  refine ⟨rfl, ?_⟩
  obtain ⟨mem1, h⟩ := TSamplerPtr.run_some calls (TSamplerPtr.ctor (some b)) b rfl mem
  exact ⟨_, mem1, h, rfl⟩

/-! ## The two backends and the factory: claims settled on the modelled bodies -/

/-- Trials that always fail pack to the byte `0x00`. -/
theorem packBits_never (trial : TRng → Bool × TRng) (h : ∀ rng, (trial rng).1 = false)
    (k : Nat) (rng : TRng) : (packBits trial k rng).1 = 0 := by
  induction k generalizing rng with
  | zero => rfl
  | succ k ih => simp [packBits, h, ih]

/-- Trials that always succeed pack to the all-one pattern of their width. -/
theorem packBits_always (trial : TRng → Bool × TRng) (h : ∀ rng, (trial rng).1 = true)
    (k : Nat) (rng : TRng) : (packBits trial k rng).1 + 1 = 2 ^ k := by
  induction k generalizing rng with
  | zero => rfl
  | succ k ih =>
    have := ih (trial rng).2
    simp only [packBits, h, if_true]
    omega

/-- When every packed byte has the same value, `fillBytes` stores that value in
the whole region and leaves every other address alone. -/
theorem fillBytes_const (trial : TRng → Bool × TRng) (v : Nat)
    (h : ∀ rng, (packBits trial 8 rng).1 % 256 = v)
    (n addr : Nat) (rng : TRng) (mem : Memory) (a : Nat) :
    (fillBytes trial n addr rng mem).2 a = if addr ≤ a ∧ a < addr + n then v else mem a := by
  induction n generalizing addr rng mem with
  | zero =>
    have h0 : ¬ (addr ≤ a ∧ a < addr + 0) := by omega
    rw [if_neg h0]
    rfl
  | succ n ih =>
    rw [fillBytes, ih]
    by_cases h1 : a = addr
    · subst h1
      simp [Memory.write, h]
    · have h2 : (addr + 1 ≤ a ∧ a < addr + 1 + n) ↔ (addr ≤ a ∧ a < addr + (n + 1)) := by
        omega
      simp [Memory.write, h1, h2]

/-- A draw of the engine is a 64-bit word. -/
theorem TRng.next_lt (rng : TRng) : (rng.next).1 < 2 ^ 64 :=
  Nat.mod_lt _ (by norm_num)

/-- With probability 0 a trial of the reference backend never succeeds. -/
theorem TStdBernoulli.trial_zero (rng : TRng) :
    ((TStdBernoulli.mk 0).trial rng).1 = false := by
  simp only [TStdBernoulli.trial, decide_eq_false_iff_not, not_lt]
  positivity

/-- With probability 1 a trial of the reference backend always succeeds. -/
theorem TStdBernoulli.trial_one (rng : TRng) :
    ((TStdBernoulli.mk 1).trial rng).1 = true := by
  simp only [TStdBernoulli.trial, decide_eq_true_eq]
  rw [div_lt_one (by positivity)]
  exact_mod_cast TRng.next_lt rng

/-- The vector backend reports `EOk` exactly on aligned arguments. -/
theorem TDummyBernoulli.Generate_ok_iff (self : TDummyBernoulli) (rng : TRng)
    (begin size : Nat) (mem : Memory) :
    (self.Generate rng begin size mem).1 = EStatus.EOk ↔ begin % 32 = 0 ∧ size % 32 = 0 := by
  unfold TDummyBernoulli.Generate chunkSize
  by_cases hb : begin % 32 = 0 <;> by_cases hs : size % 32 = 0 <;>
    by_cases h0 : self.Proba_ ≤ 0 <;> by_cases h1 : 1 ≤ self.Proba_ <;>
    simp [hb, hs, h0, h1]

/-- C2: for every `TDummyBernoulli`, engine, address and size, `Generate` returns
`EOk` if and only if the address and the size are both multiples of 32; it
returns `EWrongPtrAlignment` when only the address is misaligned and
`EWrongSizeAlignment` when only the size is not a multiple of 32. -/
theorem TDummyBernoulli.Generate_status (self : TDummyBernoulli) (rng : TRng)
    (begin size : Nat) (mem : Memory) :
    ((self.Generate rng begin size mem).1 = EStatus.EOk ↔ begin % 32 = 0 ∧ size % 32 = 0) ∧
    (begin % 32 ≠ 0 → size % 32 = 0 →
      (self.Generate rng begin size mem).1 = EStatus.EWrongPtrAlignment) ∧
    (begin % 32 = 0 → size % 32 ≠ 0 →
      (self.Generate rng begin size mem).1 = EStatus.EWrongSizeAlignment) := by
  unfold TDummyBernoulli.Generate chunkSize
  by_cases hb : begin % 32 = 0 <;> by_cases hs : size % 32 = 0 <;>
    by_cases h0 : self.Proba_ ≤ 0 <;> by_cases h1 : 1 ≤ self.Proba_ <;>
    simp [hb, hs, h0, h1]

/-- Witness of `TDummyBernoulli.Generate_status`: one call for each of the three
statuses. -/
theorem TDummyBernoulli.Generate_status_witness :
    ((TDummyBernoulli.mk (1 / 2)).Generate ⟨fun n => n, 0⟩ 64 32 (fun _ => 7)).1
        = EStatus.EOk ∧
    ((TDummyBernoulli.mk (1 / 2)).Generate ⟨fun n => n, 0⟩ 65 32 (fun _ => 7)).1
        = EStatus.EWrongPtrAlignment ∧
    ((TDummyBernoulli.mk (1 / 2)).Generate ⟨fun n => n, 0⟩ 64 33 (fun _ => 7)).1
        = EStatus.EWrongSizeAlignment :=
  ⟨(TDummyBernoulli.Generate_status _ _ 64 32 _).1.2 ⟨by decide, by decide⟩,
   (TDummyBernoulli.Generate_status _ _ 65 32 _).2.1 (by decide) (by decide),
   (TDummyBernoulli.Generate_status _ _ 64 33 _).2.2 (by decide) (by decide)⟩

/-- C3: for each of the two backends, every engine, address and size: when
`Generate` returns a status other than `EOk`, every byte of memory is the same
after the call as before it. -/
theorem Generate_failure_keeps_memory (p : ℚ) (b : IBernoulli) (hb : BuiltWith p b)
    (rng : TRng) (begin size : Nat) (mem : Memory)
    (hfail : (b.Generate rng begin size mem).1 ≠ EStatus.EOk) :
    ∀ a, (b.Generate rng begin size mem).2.2 a = mem a := by
  cases hb with
  | std => exact absurd rfl hfail
  | dummy =>
    intro a
    have hst := TDummyBernoulli.Generate_ok_iff (TDummyBernoulli.mk p) rng begin size mem
    simp only [TDummyBernoulli.toIBernoulli] at hfail ⊢
    unfold TDummyBernoulli.Generate chunkSize
    by_cases hb : begin % 32 = 0
    · have hs : size % 32 ≠ 0 := fun hs => hfail (hst.2 ⟨hb, hs⟩)
      simp [hb, hs]
    · simp [hb]

/-- Witness of `Generate_failure_keeps_memory`: the vector backend called with a
misaligned address leaves the sentinel byte at address 65 in place. -/
theorem Generate_failure_keeps_memory_witness :
    ((TDummyBernoulli.mk (1 / 2)).toIBernoulli.Generate ⟨fun n => n, 0⟩ 65 32
        (fun _ => 0xAB)).1 ≠ EStatus.EOk ∧
    ((TDummyBernoulli.mk (1 / 2)).toIBernoulli.Generate ⟨fun n => n, 0⟩ 65 32
        (fun _ => 0xAB)).2.2 65 = 0xAB :=
  ⟨by decide,
   Generate_failure_keeps_memory (1 / 2) _ BuiltWith.dummy ⟨fun n => n, 0⟩ 65 32
     (fun _ => 0xAB) (by decide) 65⟩

/-- C4: for every probability and either answer of the capability query,
`CreateBernoulliGenerator` returns a non-empty handle; its backend is a
`TDummyBernoulli` built with the probability when the vector instruction set is
reported and a `TStdBernoulli` built with it when it is not, and these two
backends are different objects. -/
theorem CreateBernoulliGenerator_backend (proba : ℚ) :
    (∀ hasVector : Bool, ((CreateBernoulliGenerator hasVector proba).get).1 ≠ none) ∧
    ((CreateBernoulliGenerator true proba).get).1
      = some (TDummyBernoulli.mk proba).toIBernoulli ∧
    ((CreateBernoulliGenerator false proba).get).1
      = some (TStdBernoulli.mk proba).toIBernoulli ∧
    (TDummyBernoulli.mk proba).toIBernoulli ≠ (TStdBernoulli.mk proba).toIBernoulli := by
  refine ⟨?_, rfl, rfl, ?_⟩
  · intro hasVector
    cases hasVector <;> simp [CreateBernoulliGenerator, TSamplerPtr.ctor, TSamplerPtr.get]
  · intro h
    have h1 := congrArg (fun b : IBernoulli => (b.Generate ⟨fun _ => 0, 0⟩ 1 0 (fun _ => 0)).1) h
    simp [TDummyBernoulli.toIBernoulli, TStdBernoulli.toIBernoulli, TDummyBernoulli.Generate,
      TStdBernoulli.Generate, chunkSize] at h1

/-- C7: for every `TStdBernoulli`, engine, address (whatever its alignment) and
size (0 included), `Generate` returns `EOk`; when the size is 0 no byte of
memory is written. -/
theorem TStdBernoulli.Generate_ok (self : TStdBernoulli) (rng : TRng) (begin size : Nat)
    (mem : Memory) :
    (self.Generate rng begin size mem).1 = EStatus.EOk ∧
    (self.Generate rng begin 0 mem).1 = EStatus.EOk ∧
    ∀ a, (self.Generate rng begin 0 mem).2.2 a = mem a :=
  ⟨rfl, rfl, fun _ => rfl⟩

/-- C8: for each of the two backends, every engine state and every address and
size on which `Generate` returns `EOk`: a sampler built with probability 0
leaves every byte of `[begin, begin + size)` equal to `0x00`, and a sampler
built with probability 1 leaves every such byte equal to `0xFF`. -/
theorem Generate_boundary (p : ℚ) (b : IBernoulli) (hb : BuiltWith p b)
    (rng : TRng) (begin size : Nat) (mem : Memory) (a : Nat)
    (hok : (b.Generate rng begin size mem).1 = EStatus.EOk)
    (hlo : begin ≤ a) (hhi : a < begin + size) :
    (p = 0 → (b.Generate rng begin size mem).2.2 a = 0x00) ∧
    (p = 1 → (b.Generate rng begin size mem).2.2 a = 0xFF) := by
  have hin : begin ≤ a ∧ a < begin + size := ⟨hlo, hhi⟩
  cases hb with
  | std =>
    constructor
    · intro hp
      subst hp
      have hbyte : ∀ r, (packBits (TStdBernoulli.mk 0).trial 8 r).1 % 256 = 0 := by
        intro r
        rw [packBits_never _ TStdBernoulli.trial_zero]
      simp only [TStdBernoulli.toIBernoulli, TStdBernoulli.Generate]
      rw [fillBytes_const _ 0 hbyte, if_pos hin]
    · intro hp
      subst hp
      have hbyte : ∀ r, (packBits (TStdBernoulli.mk 1).trial 8 r).1 % 256 = 0xFF := by
        intro r
        have := packBits_always _ TStdBernoulli.trial_one 8 r
        omega
      simp only [TStdBernoulli.toIBernoulli, TStdBernoulli.Generate]
      rw [fillBytes_const _ 0xFF hbyte, if_pos hin]
  | dummy =>
    have hal := (TDummyBernoulli.Generate_ok_iff (TDummyBernoulli.mk p) rng begin size mem).1 hok
    constructor
    · intro hp
      subst hp
      simp [TDummyBernoulli.toIBernoulli, TDummyBernoulli.Generate, chunkSize, hal.1, hal.2,
        Memory.fill, hlo, hhi]
    · intro hp
      subst hp
      have h10 : ¬ ((1 : ℚ) ≤ 0) := by norm_num
      simp [TDummyBernoulli.toIBernoulli, TDummyBernoulli.Generate, chunkSize, hal.1, hal.2,
        Memory.fill, hlo, hhi, h10]

/-- Witness of `Generate_boundary`: the reference backend with probability 0 at
an odd address, and the vector backend with probability 1 on one aligned chunk. -/
theorem Generate_boundary_witness :
    ((TStdBernoulli.mk 0).toIBernoulli.Generate ⟨fun n => n, 0⟩ 3 5 (fun _ => 0xAB)).2.2 7
        = 0x00 ∧
    ((TDummyBernoulli.mk 1).toIBernoulli.Generate ⟨fun n => n, 0⟩ 64 32 (fun _ => 0xAB)).2.2 95
        = 0xFF :=
  ⟨(Generate_boundary 0 _ BuiltWith.std ⟨fun n => n, 0⟩ 3 5 (fun _ => 0xAB) 7 rfl
      (by decide) (by decide)).1 rfl,
   (Generate_boundary 1 _ BuiltWith.dummy ⟨fun n => n, 0⟩ 64 32 (fun _ => 0xAB) 95
      ((TDummyBernoulli.Generate_ok_iff _ _ 64 32 _).2 ⟨by decide, by decide⟩)
      (by decide) (by decide)).2 rfl⟩

end NFastBernoulli
